import Mathlib

/-!
Verification development for the heat-pump-calc API.

The Python source is shallowly embedded in Lean: floating point numbers are
modelled as rationals, numpy arrays as lists, Python dictionaries as
association lists, and fallible code paths (exceptions) as `Option`.
Definitions mirror the corresponding source functions; theorems state the
specification's claims about them.
-/

namespace HeatPumpCalc

/-! ## numpy primitives

`np.interp` is modelled after numpy's `arr_interp` / `binary_search_with_guess`
compiled routines (right-bisection; at a query equal to a repeated abscissa the
rightmost duplicate's ordinate is taken).  The bisection loop is written with
explicit fuel (the interval shrinks every step, so `arr.length` steps always
suffice) so that the definition evaluates by `decide`/`rfl`. -/

/-- Right-bisection step loop of numpy's `binary_search_with_guess`:
returns the final `imin` of
`while imin < imax: imid := (imin+imax)/2; if key >= arr[imid] then imin := imid+1 else imax := imid`. -/
def binSearchGo (key : ℚ) (arr : List ℚ) : ℕ → ℕ → ℕ → ℕ
  | 0, imin, _ => imin
  | fuel + 1, imin, imax =>
    if imin < imax then
      let imid := (imin + imax) / 2
      if arr.getD imid 0 ≤ key then binSearchGo key arr fuel (imid + 1) imax
      else binSearchGo key arr fuel imin imid
    else imin

/-- numpy's `binary_search_with_guess key arr`: `arr.length` if the key is past the
last element, `-1` if before the first, otherwise the largest index `j` (for a
sorted `arr`) with `arr[j] ≤ key`. -/
def binarySearch (key : ℚ) (arr : List ℚ) : ℤ :=
  if arr.getLastD 0 < key then (arr.length : ℤ)
  else if key < arr.headI then -1
  else (binSearchGo key arr arr.length 0 arr.length : ℤ) - 1

/-- Model of `np.interp(x, xp, fp)` for a scalar query (faithful for the
sorted `xp` numpy requires; `xp = []` is a numpy error, modelled as junk 0). -/
def npInterp (x : ℚ) (xp fp : List ℚ) : ℚ :=
  if xp.length = 0 then 0
  else if xp.length = 1 then fp.headI
  else
    let j := binarySearch x xp
    if j = -1 then fp.headI
    else if j = (xp.length : ℤ) then fp.getLastD 0
    else if j = (xp.length : ℤ) - 1 then fp.getD j.toNat 0
    else if xp.getD j.toNat 0 = x then fp.getD j.toNat 0
    else
      let slope := (fp.getD (j.toNat + 1) 0 - fp.getD j.toNat 0) /
        (xp.getD (j.toNat + 1) 0 - xp.getD j.toNat 0)
      slope * (x - xp.getD j.toNat 0) + fp.getD j.toNat 0

/-- Running-sum helper for `cumsum`. -/
def cumsumFrom (acc : ℚ) : List ℚ → List ℚ
  | [] => []
  | x :: xs => (acc + x) :: cumsumFrom (acc + x) xs

/-- Model of `np.ndarray.cumsum` on a 1-d array. -/
def cumsum (l : List ℚ) : List ℚ := cumsumFrom 0 l

/-- Model of `np.ndarray.min` (junk 0 on the empty array, which numpy rejects). -/
def listMin : List ℚ → ℚ
  | [] => 0
  | x :: xs => xs.foldl min x

/-- Model of a pandas `.max()` over a column (junk 0 on empty). -/
def listMax : List ℚ → ℚ
  | [] => 0
  | x :: xs => xs.foldl max x

/-- Running-product helper for `cumprod`. -/
def cumprodFrom (acc : ℚ) : List ℚ → List ℚ
  | [] => []
  | x :: xs => (acc * x) :: cumprodFrom (acc * x) xs

/-- Model of `np.ndarray.cumprod` on a 1-d array. -/
def cumprod (l : List ℚ) : List ℚ := cumprodFrom 1 l

/-- `np.array(range(n))` as a list of rationals: `[0, 1, ..., n-1]`. -/
def yearsList : ℕ → List ℚ
  | 0 => []
  | n + 1 => yearsList n ++ [(n : ℚ)]

/-! ## econ/econ.py: payback -/

/-- `econ.payback`: cumulative-sum the cash flow; return `0.0` when the
cumulative minimum is `> 0.0`; `None` (here `none`) when the final cumulative
value is `< 0.0`; otherwise `np.interp(0.0, cum_cash, years)`. -/
def payback (cash_flow : List ℚ) : Option ℚ :=
  let cum_cash := cumsum cash_flow
  if 0 < listMin cum_cash then some 0
  else if cum_cash.getLastD 0 < 0 then none
  else
    let yrs := yearsList cash_flow.length
    some (npInterp 0 cum_cash yrs)

/-! ## econ/models.py: cash flow items

The four `CashFlowItem` subclasses become one tagged variant type, as the spec
prescribes.  `cash_flow` returns `Option (List ℚ)`: `none` models a raised
Python exception (`np.ones(-1)` for an `EscalatingFlow` at duration 0,
`pat[-1]` on an empty `PatternFlow` pattern, `range(..., 0)` for a
`PeriodicAmount` with a zero interval).  Durations are the year counts
`0, 1, 2, ...`; `end_year` is modelled as a natural number. -/

inductive CashFlowItem where
  | initialAmount (amount : ℚ)
  | escalatingFlow (amount escalation_rate : ℚ) (end_year : Option ℕ)
  | patternFlow (amount : ℚ) (pattern : List ℚ)
  | periodicAmount (amount : ℚ) (interval : ℤ) (escalation_rate : ℚ)
deriving DecidableEq

/-- `result[k:] = 0.0` on a list: zero every element at index `≥ k`. -/
def blankFrom (l : List ℚ) (k : ℕ) : List ℚ :=
  l.take k ++ List.replicate (l.length - k) 0

/-- Python `range(start, stop, step)` for a positive `step`. -/
def pyRange (start stop step : ℕ) : List ℕ :=
  List.range' start ((stop - start + step - 1) / step) step

/-- `CashFlowItem.cash_flow(duration)` for each variant, translated clause by
clause from `econ/models.py`. -/
def CashFlowItem.cash_flow : CashFlowItem → ℕ → Option (List ℚ)
  | .initialAmount amount, duration =>
      -- result = np.zeros(duration + 1); result[0] = self.amount
      some ((List.replicate (duration + 1) (0 : ℚ)).set 0 amount)
  | .escalatingFlow amount escalation_rate end_year, duration =>
      -- pat = np.ones(duration - 1) * (1 + rate): error for duration = 0
      if duration = 0 then none
      else
        let pat := List.replicate (duration - 1) (1 + escalation_rate)
        -- result = np.insert(pat.cumprod(), 0, [0.0, 1.0]) * amount
        let result := ((0 : ℚ) :: (1 : ℚ) :: cumprod pat).map (fun v => v * amount)
        some (match end_year with
          | none => result
          | some ey => blankFrom result (ey + 1))
  | .patternFlow amount pattern, duration =>
      match pattern with
      | [] => none     -- pat[-1] raises IndexError on an empty pattern
      | _ =>
        let pat :=
          if pattern.length < duration + 1 then
            pattern ++ List.replicate (duration + 1 - pattern.length) (pattern.getLastD 0)
          else if duration + 1 < pattern.length then
            pattern.take (duration + 1)
          else pattern
        some (pat.map (fun v => amount * v))
  | .periodicAmount amount interval escalation_rate, duration =>
      if interval = 0 then none     -- range() arg 3 must not be zero
      else if interval < 0 then
        -- range(interval, duration + 1, interval) is empty for interval < 0
        some (List.replicate (duration + 1) (0 : ℚ))
      else
        let yrs := pyRange interval.toNat (duration + 1) interval.toNat
        some (yrs.foldl
          (fun result yr => result.set yr (amount * (1 + escalation_rate) ^ yr))
          (List.replicate (duration + 1) (0 : ℚ)))

/-- Elementwise `net_cash += cash_array` (numpy array addition). -/
def zipAdd (a b : List ℚ) : List ℚ := List.zipWith (· + ·) a b

/-- Accumulation loop of `analyze_cash_flow` once a first array is in hand. -/
def netCashGo (duration : ℕ) (acc : List ℚ) : List CashFlowItem → Option (List ℚ)
  | [] => some acc
  | item :: rest => do
      let f ← item.cash_flow duration
      netCashGo duration (zipAdd acc f) rest

/-- The "Net Cash" array built by `analyze_cash_flow`: starts at `None`, takes
the first item's array, then adds each further item's array elementwise.
`none` models both an exception inside an item's `cash_flow` and the
`list(None)` failure when there are no items at all. -/
def netCash (items : List CashFlowItem) (duration : ℕ) : Option (List ℚ) :=
  match items with
  | [] => none
  | item :: rest => do
      let f ← item.cash_flow duration
      netCashGo duration f rest

/-! ## econ/econ.py: NPV and the benefit/cost ratio -/

/-- `numpy_financial.npv(rate, values)`: `values[0]` is not discounted. -/
def npf_npv (rate : ℚ) (values : List ℚ) : ℚ :=
  ((List.range values.length).map (fun i => values.getD i 0 / (1 + rate) ^ i)).sum

/-- The benefit/cost computation of `analyze_cash_flow` (lines 55-83): only
attempted under a supplied discount rate; `None` when `net_cash[0] >= 0.0`;
otherwise `(npv + cost) / cost` with `cost = -net_cash[0]`. -/
def bc_ratio_calc (discount_rate : Option ℚ) (net_cash : List ℚ) : Option ℚ :=
  match discount_rate with
  | none => none
  | some rate =>
      let npv := npf_npv rate net_cash
      if 0 ≤ net_cash.headI then none
      else
        let cost := -net_cash.headI
        let npv_benefits := npv + cost
        some (npv_benefits / cost)

/-! ## energy/energy_model.py: the hourly dispatch loop -/

/-- `TemperatureTolerance` enum from `energy/models.py`. -/
inductive TemperatureTolerance where
  | low
  | med
  | high
deriving DecidableEq

/-- The heat-pump fields consumed by the hourly loop and the daily
run-eligibility computation (`energy/models.py` `HeatPump`). -/
structure HeatPump where
  frac_exposed_to_hp : ℚ
  frac_adjacent_to_hp : ℚ
  doors_open_to_adjacent : Bool
  bedroom_temp_tolerance : TemperatureTolerance
  serves_garage : Bool
  low_temp_cutoff : Option ℚ
  off_months : Option (List ℕ)

/-- `energy_model.temp_depression`: bedroom temperature depression relative to
the directly heated main space. -/
def temp_depression (ua_per_ft2 balance_point outdoor_temp : ℚ)
    (doors_open : Bool) : ℚ :=
  let r_to_bedroom : ℚ := if doors_open then 424 / 1000 else 142 / 100
  let temp_delta := balance_point - outdoor_temp
  temp_delta * r_to_bedroom / (r_to_bedroom + 1 / ua_per_ft2)

/-- The temperature-depression tolerance band, deg F
(2/5/10 for low/med/high). -/
def temp_depress_tolerance : TemperatureTolerance → ℚ
  | .low => 2
  | .med => 5
  | .high => 10

/-- Per-hour input row of the hourly loop: outdoor temperature, the daily
running flag, and the hour's maximum heat-pump output. -/
structure HourInputs where
  db_temp : ℚ
  running : Bool
  max_hp_output : ℚ

/-- Per-hour outputs appended by the loop. -/
structure HourLoads where
  hp_load : ℚ
  conventional_load : ℚ
  hp_capacity_used : ℚ
deriving DecidableEq

/-- `home_load` for the hour (envelope loss above the home balance point plus
the per-hour share of any heat-pump-water-heater space load). -/
def hour_home_load (balance_point_home ua_home main_home_hpwh_load t : ℚ) : ℚ :=
  max 0 (balance_point_home - t) * ua_home + main_home_hpwh_load / 24

/-- `garage_load` for the hour. -/
def hour_garage_load (balance_point_garage ua_garage garage_hpwh_load t : ℚ) : ℚ :=
  max 0 (balance_point_garage - t) * ua_garage + garage_hpwh_load / 24

/-- `total_load = home_load + garage_load` for the hour. -/
def hour_total_load (balance_point_home balance_point_garage ua_home ua_garage
    main_home_hpwh_load garage_hpwh_load t : ℚ) : ℚ :=
  hour_home_load balance_point_home ua_home main_home_hpwh_load t +
    hour_garage_load balance_point_garage ua_garage garage_hpwh_load t

/-- The candidate heat-pump load built up inside the hourly loop before the
capacity clamp: the exposed share of the home load, the garage load when the
heat pump serves the garage, and the adjacent share of the home load whenever
the bedroom temperature depression is within tolerance. -/
def candidate_hp_load (hp : HeatPump) (ua_per_ft2 balance_point_home t
    home_load garage_load : ℚ) : ℚ :=
  -- hp_ld = home_load * frac_exposed_to_hp
  let hp_ld₀ := home_load * hp.frac_exposed_to_hp
  -- hp_ld += garage_load * serves_garage
  let hp_ld₁ := hp_ld₀ + garage_load * (if hp.serves_garage then 1 else 0)
  let t_depress := temp_depression ua_per_ft2 balance_point_home t
    hp.doors_open_to_adjacent
  -- if temp_depress <= temp_depress_tolerance: hp_ld += home_load * frac_adjacent_to_hp
  if t_depress ≤ temp_depress_tolerance hp.bedroom_temp_tolerance then
    hp_ld₁ + home_load * hp.frac_adjacent_to_hp
  else hp_ld₁

/-- Body of the hourly loop of `model_building` (heat-pump branch,
`energy_model.py` lines 232-289): build up the candidate heat-pump load,
clamp it to the hour's maximum output, and assign the remainder to the
conventional system. -/
def hour_loads (hp : HeatPump)
    (ua_per_ft2 ua_home ua_garage balance_point_home balance_point_garage
      main_home_hpwh_load garage_hpwh_load : ℚ) (h : HourInputs) : HourLoads :=
  let home_load := hour_home_load balance_point_home ua_home main_home_hpwh_load h.db_temp
  let garage_load := hour_garage_load balance_point_garage ua_garage garage_hpwh_load h.db_temp
  let total_load := home_load + garage_load
  if ¬ h.running then
    { hp_load := 0, conventional_load := total_load, hp_capacity_used := 0 }
  else
    -- hp_ld = min(hp_ld, h.max_hp_output)
    let hp_ld := min
      (candidate_hp_load hp ua_per_ft2 balance_point_home h.db_temp home_load garage_load)
      h.max_hp_output
    { hp_load := hp_ld
      conventional_load := total_load - hp_ld
      hp_capacity_used := hp_ld / h.max_hp_output }

/-- The hour's maximum heat-pump output as `model_building` computes it:
`np.interp` of the hour's outdoor temperature over the performance-curve
temperature and max-capacity arrays. -/
def max_hp_output_at (db_temp : ℚ) (temps max_capacities : List ℚ) : ℚ :=
  npInterp db_temp temps max_capacities

/-! ## energy/energy_model.py: daily run eligibility -/

/-- `pandas.Series.quantile(0.2)` with the default linear interpolation:
sort ascending, take position `0.2 * (n - 1)` and interpolate between the
bracketing order statistics. -/
def quantile20 (xs : List ℚ) : ℚ :=
  let s := List.insertionSort (· ≤ ·) xs
  let n := s.length
  if n = 0 then 0
  else
    let pos : ℚ := (n - 1 : ℕ) / 5
    let i : ℕ := (n - 1) / 5
    let g : ℚ := pos - (i : ℚ)
    s.getD i 0 + g * (s.getD (i + 1) 0 - s.getD i 0)

/-- One row of the hourly weather frame: temperature, month and day of year. -/
structure HourRow where
  db_temp : ℚ
  month : ℕ
  day_of_year : ℕ

/-- The temperatures of all hours sharing a `day_of_year`
(the `groupby("day_of_year")["db_temp"]` group of an hour). -/
def day_temps (hours : List HourRow) (d : ℕ) : List ℚ :=
  (hours.filter (fun h => h.day_of_year = d)).map (fun h => h.db_temp)

/-- The `dfh["running"]` column before off-month masking: the groupby/transform
of `lambda x: x.quantile(0.2) > low_temp_cutoff` when a cutoff is configured,
`True` everywhere otherwise. -/
def running_transform (hours : List HourRow) (low_temp_cutoff : Option ℚ) : List Bool :=
  match low_temp_cutoff with
  | some cutoff =>
      hours.map (fun h => decide (cutoff < quantile20 (day_temps hours h.day_of_year)))
  | none => hours.map (fun _ => true)

/-- The off-month mask: `dfh.loc[off_mask, "running"] = False`. -/
def apply_off_months (hours : List HourRow) (off_months : Option (List ℕ))
    (running : List Bool) : List Bool :=
  match off_months with
  | none => running
  | some off => (hours.zip running).map (fun p => if p.1.month ∈ off then false else p.2)

/-- The final `dfh["running"]` column of `model_building`
(lines 122-136): daily cutoff eligibility, then off-month masking. -/
def running_column (hours : List HourRow) (low_temp_cutoff : Option ℚ)
    (off_months : Option (List ℕ)) : List Bool :=
  apply_off_months hours off_months (running_transform hours low_temp_cutoff)

/-- Fuel identifiers (`library.models.Fuel_id`), the outer key of the
two-level fuel maps. -/
inductive Fuel where
  | elec
  | oil1
  | propane
  | birch
  | natural_gas
deriving DecidableEq

/-- `EndUse` enum from `energy/models.py`, the inner key of the two-level
fuel maps. -/
inductive EndUse where
  | space_htg
  | dhw
  | cooking
  | drying
  | misc_elec
  | ev_charging
  | pv_solar
deriving DecidableEq

/-! ## general/dict2d.py and general/utils.py: dictionary accumulators

Python dictionaries become association lists (insertion-ordered, first match
wins on lookup, in-place value update on existing keys). -/

/-- `dict.get(k, d)`: value of the first entry with key `k`, else `d`. -/
def alGet {κ α : Type} [DecidableEq κ] (l : List (κ × α)) (k : κ) (d : α) : α :=
  match l with
  | [] => d
  | (k₀, v) :: rest => if k₀ = k then v else alGet rest k d

/-- `dict[k] = v`: replace the value of the existing entry for `k`, else append
a new entry. -/
def alSet {κ α : Type} [DecidableEq κ] (l : List (κ × α)) (k : κ) (v : α) : List (κ × α) :=
  match l with
  | [] => [(k, v)]
  | (k₀, v₀) :: rest => if k₀ = k then (k₀, v) :: rest else (k₀, v₀) :: alSet rest k v

/-- `general.dict2d.Dict2d`: a sparse two-key running-sum structure; a missing
key pair holds 0.0. -/
structure Dict2d (κ₁ κ₂ : Type) where
  store : List (κ₁ × List (κ₂ × ℚ))

/-- The empty `Dict2d()`. -/
def Dict2d.empty {κ₁ κ₂ : Type} : Dict2d κ₁ κ₂ := ⟨[]⟩

/-- `Dict2d.add`: add `value` to the existing value at `(key1, key2)`. -/
def Dict2d.add {κ₁ κ₂ : Type} [DecidableEq κ₁] [DecidableEq κ₂]
    (s : Dict2d κ₁ κ₂) (key1 : κ₁) (key2 : κ₂) (value : ℚ) : Dict2d κ₁ κ₂ :=
  let inner := alGet s.store key1 []
  let existing_val := alGet inner key2 0
  let new_value := existing_val + value
  ⟨alSet s.store key1 (alSet inner key2 new_value)⟩

/-- `Dict2d.get`: the value at `(key1, key2)`, 0.0 when absent. -/
def Dict2d.get {κ₁ κ₂ : Type} [DecidableEq κ₁] [DecidableEq κ₂]
    (s : Dict2d κ₁ κ₂) (key1 : κ₁) (key2 : κ₂) : ℚ :=
  alGet (alGet s.store key1 []) key2 0

/-- `Dict2d.sum_key1`: per-outer-key sums of the inner dictionaries. -/
def Dict2d.sum_key1 {κ₁ κ₂ : Type} (s : Dict2d κ₁ κ₂) : List (κ₁ × ℚ) :=
  s.store.map (fun p => (p.1, (p.2.map Prod.snd).sum))

/-- The `(key1, key2, value)` triples of a `Dict2d` in iteration order. -/
def Dict2d.entries {κ₁ κ₂ : Type} (s : Dict2d κ₁ κ₂) : List (κ₁ × κ₂ × ℚ) :=
  s.store.flatMap (fun p => p.2.map (fun q => (p.1, q.1, q.2)))

/-- `Dict2d.add_object`: fold `add` over every entry of the other object. -/
def Dict2d.add_object {κ₁ κ₂ : Type} [DecidableEq κ₁] [DecidableEq κ₂]
    (s obj : Dict2d κ₁ κ₂) : Dict2d κ₁ κ₂ :=
  obj.entries.foldl (fun acc e => acc.add e.1 e.2.1 e.2.2) s

/-- The contribution of a `Dict2d`'s raw entry list to one `(a, b)` cell. -/
def Dict2d.entriesSumAt {κ₁ κ₂ : Type} [DecidableEq κ₁] [DecidableEq κ₂]
    (obj : Dict2d κ₁ κ₂) (a : κ₁) (b : κ₂) : ℚ :=
  (obj.entries.map (fun e => if e.1 = a ∧ e.2.1 = b then e.2.2 else 0)).sum

/-- Well-formedness delivered by Python dicts: outer keys are distinct and so
are the keys of each inner dictionary. -/
def Dict2d.WF {κ₁ κ₂ : Type} (s : Dict2d κ₁ κ₂) : Prop :=
  (s.store.map Prod.fst).Nodup ∧ ∀ p ∈ s.store, (p.2.map Prod.fst).Nodup

/-- `general.utils.sum_dicts`: sum a list of numeric dictionaries key by key,
missing keys counting as 0. -/
def sum_dicts {κ : Type} [DecidableEq κ] (dict_list : List (List (κ × ℚ))) : List (κ × ℚ) :=
  dict_list.foldl
    (fun result d =>
      d.foldl (fun res kv => alSet res kv.1 (alGet res kv.1 0 + kv.2)) result)
    []

/-! ## energy/energy_model.py: monthly to annual aggregation -/

/-- One monthly row of the results frame `dfm`, restricted to the columns that
`monthly_to_annual_results` reads. -/
structure MonthRow (κ₁ κ₂ : Type) where
  hp_load_mmbtu : ℚ
  hp_kwh : ℚ
  conventional_load_mmbtu : ℚ
  conventional_load_mmbtu_primary : ℚ
  conventional_load_mmbtu_secondary : ℚ
  fuel_total_cost : ℚ
  co2_lbs : ℚ
  hp_capacity_used_max : ℚ
  elec_demand : ℚ
  fuel_use_mmbtu : Dict2d κ₁ κ₂
  fuel_use_units : Dict2d κ₁ κ₂
  fuel_cost : List (κ₁ × ℚ)

/-- The annual roll-up row produced by `monthly_to_annual_results`.  `cop` is
`none` when `hp_kwh` is zero (the code writes `np.nan`, later serialized to
`None`); `hp_load_frac` keeps the code's plain quotient. -/
structure AnnualRow (κ₁ κ₂ : Type) where
  hp_load_mmbtu : ℚ
  hp_kwh : ℚ
  conventional_load_mmbtu : ℚ
  conventional_load_mmbtu_primary : ℚ
  conventional_load_mmbtu_secondary : ℚ
  fuel_total_cost : ℚ
  co2_lbs : ℚ
  hp_capacity_used_max : ℚ
  elec_demand : ℚ
  hp_load_frac : ℚ
  cop : Option ℚ
  fuel_use_mmbtu : Dict2d κ₁ κ₂
  fuel_use_units : Dict2d κ₁ κ₂
  fuel_cost : List (κ₁ × ℚ)

/-- `energy_model.monthly_to_annual_results`: sum the energy/cost/CO2 columns,
take the max of the peak columns, recompute `hp_load_frac` and `cop` from the
annual sums, merge the two-level fuel maps month by month with
`Dict2d.add_object`, and merge the fuel-cost dictionaries with `sum_dicts`. -/
def monthly_to_annual_results {κ₁ κ₂ : Type} [DecidableEq κ₁] [DecidableEq κ₂]
    (df_monthly : List (MonthRow κ₁ κ₂)) : AnnualRow κ₁ κ₂ :=
  let s_hp_load := (df_monthly.map (fun m => m.hp_load_mmbtu)).sum
  let s_hp_kwh := (df_monthly.map (fun m => m.hp_kwh)).sum
  let s_conv := (df_monthly.map (fun m => m.conventional_load_mmbtu)).sum
  { hp_load_mmbtu := s_hp_load
    hp_kwh := s_hp_kwh
    conventional_load_mmbtu := s_conv
    conventional_load_mmbtu_primary :=
      (df_monthly.map (fun m => m.conventional_load_mmbtu_primary)).sum
    conventional_load_mmbtu_secondary :=
      (df_monthly.map (fun m => m.conventional_load_mmbtu_secondary)).sum
    fuel_total_cost := (df_monthly.map (fun m => m.fuel_total_cost)).sum
    co2_lbs := (df_monthly.map (fun m => m.co2_lbs)).sum
    hp_capacity_used_max := listMax (df_monthly.map (fun m => m.hp_capacity_used_max))
    elec_demand := listMax (df_monthly.map (fun m => m.elec_demand))
    hp_load_frac := s_hp_load / (s_hp_load + s_conv)
    cop := if 0 < s_hp_kwh then some (s_hp_load / (s_hp_kwh * (3412 / 1000000))) else none
    fuel_use_mmbtu :=
      df_monthly.foldl (fun acc m => acc.add_object m.fuel_use_mmbtu) Dict2d.empty
    fuel_use_units :=
      df_monthly.foldl (fun acc m => acc.add_object m.fuel_use_units) Dict2d.empty
    fuel_cost := sum_dicts (df_monthly.map (fun m => m.fuel_cost)) }

/-- A sample monthly results row used to exercise the aggregator on concrete
data: electric and oil space heating plus oil domestic hot water. -/
def sampleMonth : MonthRow Fuel EndUse :=
  { hp_load_mmbtu := 2
    hp_kwh := 150
    conventional_load_mmbtu := 3
    conventional_load_mmbtu_primary := 2
    conventional_load_mmbtu_secondary := 1
    fuel_total_cost := 250
    co2_lbs := 900
    hp_capacity_used_max := 7/10
    elec_demand := 4
    fuel_use_mmbtu := ⟨[(Fuel.elec, [(EndUse.space_htg, 1/2)]),
      (Fuel.oil1, [(EndUse.space_htg, 3), (EndUse.dhw, 1)])]⟩
    fuel_use_units := ⟨[(Fuel.elec, [(EndUse.space_htg, 150)]),
      (Fuel.oil1, [(EndUse.space_htg, 22), (EndUse.dhw, 7)])]⟩
    fuel_cost := [(Fuel.elec, 40), (Fuel.oil1, 210)] }

/-! ## energy/fit_model.py: fit output and load-share assignment -/

/-- The parameter vector `result.x` handed back by the bounded optimizer
(`scipy.optimize.minimize`), in the order `ModelFitter.fit` unpacks it. -/
structure FitParams where
  ua_per_ft2 : ℚ
  primary_load_frac : ℚ
  misc_elec : ℚ
  misc_seasonality : ℚ
  ev_effic : ℚ
  ev_seasonality : ℚ
  solar : ℚ

/-- The fields of a conventional heating system touched by the fit engine. -/
structure ConventionalHeatingSystem where
  heating_effic : ℚ
  aux_elec_use : ℚ
  frac_load_served : ℚ

/-- The building-description fields the fit engine overwrites. -/
structure FitBuilding where
  ua_per_ft2 : ℚ
  conventional_heat_primary : ConventionalHeatingSystem
  conventional_heat_secondary : ConventionalHeatingSystem
  misc_elec_kwh_per_day : ℚ
  misc_elec_seasonality : ℚ
  ev_miles_per_kwh : ℚ
  ev_seasonality : ℚ
  solar_kwh_per_kw : ℚ

/-- The parameter assignment `ModelFitter.fit` (lines 116-123) performs on the
building description with the optimizer's `result.x` — `ModelFitter.model_error`
(lines 168-175) applies the same assignment on each objective evaluation:
the primary system serves `x[1]` of the load, the secondary `1 - x[1]`. -/
def fit_apply_params (bldg : FitBuilding) (x : FitParams) : FitBuilding :=
  { bldg with
    ua_per_ft2 := x.ua_per_ft2
    conventional_heat_primary :=
      { bldg.conventional_heat_primary with frac_load_served := x.primary_load_frac }
    conventional_heat_secondary :=
      { bldg.conventional_heat_secondary with frac_load_served := 1 - x.primary_load_frac }
    misc_elec_kwh_per_day := x.misc_elec
    misc_elec_seasonality := x.misc_seasonality
    ev_miles_per_kwh := x.ev_effic
    ev_seasonality := x.ev_seasonality
    solar_kwh_per_kw := x.solar }

/-- `math.copysign(0.999, modeled)` — the fixed-magnitude sentinel error used
when actual use is zero (rationals carry no negative zero, so `modeled = 0`
takes the positive sign, as `+0.0` does in Python). -/
def copysign999 (modeled : ℚ) : ℚ :=
  if modeled < 0 then -(999 / 1000) else 999 / 1000

/-- The per-fuel `(actual, modeled, error)` triple `ModelFitter.fit` stores in
`fuel_fit_info` (lines 138-146): look both uses up with a 0.0 default, divide
only when the actual use is nonzero, otherwise use the sentinel. -/
def fuel_fit_triple {κ : Type} [DecidableEq κ]
    (actual_fuel_units fuel_modeled : List (κ × ℚ)) (fuel_id : κ) : ℚ × ℚ × ℚ :=
  let actual := alGet actual_fuel_units fuel_id 0
  let modeled := alGet fuel_modeled fuel_id 0
  let error := if actual ≠ 0 then (modeled - actual) / actual else copysign999 modeled
  (actual, modeled, error)

/-! ## Theorems -/

/-- Claim C10: the fit engine always returns a building description whose
primary and secondary conventional `frac_load_served` values sum to exactly 1:
whatever load-share parameter `x[1]` the optimizer picks, `ModelFitter.fit`
assigns the primary system `x[1]` and the secondary system `1 - x[1]`. -/
theorem fit_load_shares_sum_to_one (bldg : FitBuilding) (x : FitParams) :
    (fit_apply_params bldg x).conventional_heat_primary.frac_load_served +
      (fit_apply_params bldg x).conventional_heat_secondary.frac_load_served = 1 := by
  simp [fit_apply_params]

/-- Claim C9: each used fuel's fit-info triple is `(actual, modeled, error)`
with `error = (modeled - actual) / actual` when the actual use is nonzero, and
the bounded sentinel `±0.999` (never an unbounded or undefined quotient) when
the actual use is zero. -/
theorem fuel_fit_error_spec {κ : Type} [DecidableEq κ]
    (actual_fuel_units fuel_modeled : List (κ × ℚ)) (fuel_id : κ) :
    (fuel_fit_triple actual_fuel_units fuel_modeled fuel_id).1 =
      alGet actual_fuel_units fuel_id 0 ∧
    (fuel_fit_triple actual_fuel_units fuel_modeled fuel_id).2.1 =
      alGet fuel_modeled fuel_id 0 ∧
    (alGet actual_fuel_units fuel_id 0 ≠ 0 →
      (fuel_fit_triple actual_fuel_units fuel_modeled fuel_id).2.2 =
        (alGet fuel_modeled fuel_id 0 - alGet actual_fuel_units fuel_id 0) /
          alGet actual_fuel_units fuel_id 0) ∧
    (alGet actual_fuel_units fuel_id 0 = 0 →
      (fuel_fit_triple actual_fuel_units fuel_modeled fuel_id).2.2 = 999 / 1000 ∨
      (fuel_fit_triple actual_fuel_units fuel_modeled fuel_id).2.2 = -(999 / 1000)) := by
  refine ⟨rfl, rfl, fun hne => ?_, fun heq => ?_⟩
  · simp [fuel_fit_triple, hne]
  · by_cases hm : alGet fuel_modeled fuel_id 0 < 0
    · right; simp [fuel_fit_triple, heq, copysign999, hm]
    · left; simp [fuel_fit_triple, heq, copysign999, hm]

/-- Witness for C9 at a concrete input: an unused actual entry (defaulting to
zero) together with positive modeled use yields the positive sentinel. -/
theorem fuel_fit_error_spec_witness :
    (fuel_fit_triple ([] : List (ℕ × ℚ)) [(1, 5)] 1).2.2 = 999 / 1000 ∨
    (fuel_fit_triple ([] : List (ℕ × ℚ)) [(1, 5)] 1).2.2 = -(999 / 1000) :=
  (fuel_fit_error_spec ([] : List (ℕ × ℚ)) [(1, 5)] 1).2.2.2 rfl

/-- Claim C6: `analyze_cash_flow` produces a benefit/cost ratio exactly when a
discount rate is supplied and the year-0 net cash is negative, in which case
it equals `(NPV + cost) / cost` with `cost` the negated year-0 net cash;
otherwise the ratio is `None`. -/
theorem bc_ratio_spec (discount_rate : Option ℚ) (net_cash : List ℚ) :
    ((bc_ratio_calc discount_rate net_cash).isSome ↔
      discount_rate.isSome ∧ net_cash.headI < 0) ∧
    (∀ rate, discount_rate = some rate → net_cash.headI < 0 →
      bc_ratio_calc discount_rate net_cash =
        some ((npf_npv rate net_cash + -net_cash.headI) / -net_cash.headI)) := by
  constructor
  · cases discount_rate with
    | none => simp [bc_ratio_calc]
    | some rate =>
        by_cases h0 : 0 ≤ net_cash.headI
        · simp [bc_ratio_calc, h0, not_lt.mpr h0]
        · simp [bc_ratio_calc, h0, lt_of_not_ge h0]
  · rintro rate rfl hneg
    simp [bc_ratio_calc, not_le.mpr hneg]

/-- Witness for C6 at a concrete input: discount rate 5%, net cash
`[-100, 60, 60]`. -/
theorem bc_ratio_spec_witness :
    bc_ratio_calc (some (1 / 20)) [-100, 60, 60] =
      some ((npf_npv (1 / 20) [-100, 60, 60] + -([-100, 60, 60] : List ℚ).headI) /
        -([-100, 60, 60] : List ℚ).headI) :=
  (bc_ratio_spec (some (1 / 20)) [-100, 60, 60]).2 (1 / 20) rfl (by norm_num)

/-- Claim C3 (failing input): on the cash flow `[0, 0, 5]` the cumulative
sequence `[0, 0, 5]` has minimum 0, so the spec (and the function's own
docstring: "If the cumulative cash flow is never negative, returns 0.0")
demand payback 0.0 — but the strict `cum_cash.min() > 0.0` test falls through
to `np.interp`, which answers year 1 at the duplicated leading zeros.  The
interpolation clause itself is right: `[-100, 60, 60]` gives 5/3 ≈ 1.67. -/
theorem payback_min_zero_failing :
    payback [0, 0, 5] = some 1 ∧
    listMin (cumsum [0, 0, 5]) = 0 ∧
    payback [-100, 60, 60] = some (5 / 3) := by
  refine ⟨?_, ?_, ?_⟩ <;>
    norm_num [payback, cumsum, cumsumFrom, listMin, npInterp, binarySearch,
      binSearchGo, yearsList]

/-- The hourly home load is nonnegative for a nonnegative UA and
water-heater load. -/
lemma hour_home_load_nonneg (balance_point_home ua_home main_home_hpwh_load t : ℚ)
    (hua : 0 ≤ ua_home) (hw : 0 ≤ main_home_hpwh_load) :
    0 ≤ hour_home_load balance_point_home ua_home main_home_hpwh_load t := by
  unfold hour_home_load
  have h1 : 0 ≤ max 0 (balance_point_home - t) * ua_home :=
    mul_nonneg (le_max_left 0 _) hua
  have h2 : 0 ≤ main_home_hpwh_load / 24 := by positivity
  linarith

/-- The hourly garage load is nonnegative for a nonnegative UA and
water-heater load. -/
lemma hour_garage_load_nonneg (balance_point_garage ua_garage garage_hpwh_load t : ℚ)
    (hua : 0 ≤ ua_garage) (hw : 0 ≤ garage_hpwh_load) :
    0 ≤ hour_garage_load balance_point_garage ua_garage garage_hpwh_load t := by
  unfold hour_garage_load
  have h1 : 0 ≤ max 0 (balance_point_garage - t) * ua_garage :=
    mul_nonneg (le_max_left 0 _) hua
  have h2 : 0 ≤ garage_hpwh_load / 24 := by positivity
  linarith

section HourlyLoop

variable (hp : HeatPump)
  (ua_per_ft2 ua_home ua_garage balance_point_home balance_point_garage
    main_home_hpwh_load garage_hpwh_load : ℚ) (h : HourInputs)

/-- When the heat pump is not eligible this hour, all load goes conventional. -/
lemma hour_loads_not_running (hrun : h.running = false) :
    hour_loads hp ua_per_ft2 ua_home ua_garage balance_point_home
        balance_point_garage main_home_hpwh_load garage_hpwh_load h =
      { hp_load := 0
        conventional_load := hour_total_load balance_point_home balance_point_garage
          ua_home ua_garage main_home_hpwh_load garage_hpwh_load h.db_temp
        hp_capacity_used := 0 } := by
  unfold hour_loads
  rw [if_pos (by simp [hrun])]
  rfl

/-- When the heat pump runs this hour, the clamped candidate is assigned to it
and the remainder of the total load to the conventional system. -/
lemma hour_loads_running (hrun : h.running = true) :
    hour_loads hp ua_per_ft2 ua_home ua_garage balance_point_home
        balance_point_garage main_home_hpwh_load garage_hpwh_load h =
      { hp_load := min
          (candidate_hp_load hp ua_per_ft2 balance_point_home h.db_temp
            (hour_home_load balance_point_home ua_home main_home_hpwh_load h.db_temp)
            (hour_garage_load balance_point_garage ua_garage garage_hpwh_load h.db_temp))
          h.max_hp_output
        conventional_load := hour_total_load balance_point_home balance_point_garage
            ua_home ua_garage main_home_hpwh_load garage_hpwh_load h.db_temp -
          min (candidate_hp_load hp ua_per_ft2 balance_point_home h.db_temp
            (hour_home_load balance_point_home ua_home main_home_hpwh_load h.db_temp)
            (hour_garage_load balance_point_garage ua_garage garage_hpwh_load h.db_temp))
            h.max_hp_output
        hp_capacity_used := min
            (candidate_hp_load hp ua_per_ft2 balance_point_home h.db_temp
              (hour_home_load balance_point_home ua_home main_home_hpwh_load h.db_temp)
              (hour_garage_load balance_point_garage ua_garage garage_hpwh_load h.db_temp))
            h.max_hp_output / h.max_hp_output } := by
  unfold hour_loads
  rw [if_neg (by simp [hrun])]
  rfl

/-- The candidate heat-pump load is nonnegative for nonnegative loads and
nonnegative exposure fractions, and never exceeds the home plus garage load
when the exposure fractions sum to at most one. -/
lemma candidate_hp_load_bounds (home_load garage_load : ℚ)
    (hfe : 0 ≤ hp.frac_exposed_to_hp)
    (hfa : 0 ≤ hp.frac_adjacent_to_hp)
    (hsum : hp.frac_exposed_to_hp + hp.frac_adjacent_to_hp ≤ 1)
    (hhl : 0 ≤ home_load) (hgl : 0 ≤ garage_load) :
    0 ≤ candidate_hp_load hp ua_per_ft2 balance_point_home h.db_temp
        home_load garage_load ∧
    candidate_hp_load hp ua_per_ft2 balance_point_home h.db_temp
        home_load garage_load ≤ home_load + garage_load := by
  unfold candidate_hp_load
  set c : ℚ := if hp.serves_garage then 1 else 0 with hc
  have hc0 : (0 : ℚ) ≤ c := by rw [hc]; split <;> norm_num
  have hc1 : c ≤ 1 := by rw [hc]; split <;> norm_num
  simp only []
  split
  · constructor
    · positivity
    · nlinarith
  · constructor
    · positivity
    · nlinarith

/-- Claim C1: in the hourly dispatch loop, when the heat pump's exposure
fractions are genuine fractions with `frac_exposed_to_hp +
frac_adjacent_to_hp ≤ 1` (physical inputs: nonnegative UA values,
water-heater loads and maximum output), the hour's conventional load equals
the total home-plus-garage load minus the hour's heat-pump load, and both
assigned loads are nonnegative. -/
theorem hourly_load_split (hp : HeatPump)
    (ua_per_ft2 ua_home ua_garage balance_point_home balance_point_garage
      main_home_hpwh_load garage_hpwh_load : ℚ) (h : HourInputs)
    (hfe : 0 ≤ hp.frac_exposed_to_hp)
    (hfa : 0 ≤ hp.frac_adjacent_to_hp)
    (hsum : hp.frac_exposed_to_hp + hp.frac_adjacent_to_hp ≤ 1)
    (hua_home : 0 ≤ ua_home) (hua_garage : 0 ≤ ua_garage)
    (hw_home : 0 ≤ main_home_hpwh_load) (hw_garage : 0 ≤ garage_hpwh_load)
    (hmax : 0 ≤ h.max_hp_output) :
    (hour_loads hp ua_per_ft2 ua_home ua_garage balance_point_home
        balance_point_garage main_home_hpwh_load garage_hpwh_load h).conventional_load =
      hour_total_load balance_point_home balance_point_garage ua_home ua_garage
        main_home_hpwh_load garage_hpwh_load h.db_temp -
      (hour_loads hp ua_per_ft2 ua_home ua_garage balance_point_home
        balance_point_garage main_home_hpwh_load garage_hpwh_load h).hp_load ∧
    0 ≤ (hour_loads hp ua_per_ft2 ua_home ua_garage balance_point_home
        balance_point_garage main_home_hpwh_load garage_hpwh_load h).hp_load ∧
    0 ≤ (hour_loads hp ua_per_ft2 ua_home ua_garage balance_point_home
        balance_point_garage main_home_hpwh_load garage_hpwh_load h).conventional_load := by
  have hHL := hour_home_load_nonneg balance_point_home ua_home main_home_hpwh_load
    h.db_temp hua_home hw_home
  have hGL := hour_garage_load_nonneg balance_point_garage ua_garage garage_hpwh_load
    h.db_temp hua_garage hw_garage
  have htot : 0 ≤ hour_total_load balance_point_home balance_point_garage ua_home
      ua_garage main_home_hpwh_load garage_hpwh_load h.db_temp := by
    unfold hour_total_load; linarith
  rcases Bool.eq_false_or_eq_true h.running with hrun | hrun
  · rw [hour_loads_running hp ua_per_ft2 ua_home ua_garage balance_point_home
      balance_point_garage main_home_hpwh_load garage_hpwh_load h hrun]
    obtain ⟨hcand0, hcand1⟩ := candidate_hp_load_bounds hp ua_per_ft2
      balance_point_home h
      (hour_home_load balance_point_home ua_home main_home_hpwh_load h.db_temp)
      (hour_garage_load balance_point_garage ua_garage garage_hpwh_load h.db_temp)
      hfe hfa hsum hHL hGL
    refine ⟨rfl, le_min hcand0 hmax, ?_⟩
    have hle := min_le_left
      (candidate_hp_load hp ua_per_ft2 balance_point_home h.db_temp
        (hour_home_load balance_point_home ua_home main_home_hpwh_load h.db_temp)
        (hour_garage_load balance_point_garage ua_garage garage_hpwh_load h.db_temp))
      h.max_hp_output
    have htoteq : hour_total_load balance_point_home balance_point_garage ua_home
        ua_garage main_home_hpwh_load garage_hpwh_load h.db_temp =
        hour_home_load balance_point_home ua_home main_home_hpwh_load h.db_temp +
        hour_garage_load balance_point_garage ua_garage garage_hpwh_load h.db_temp := rfl
    simp only [HourLoads.conventional_load, sub_nonneg, htoteq]
    linarith
  · rw [hour_loads_not_running hp ua_per_ft2 ua_home ua_garage balance_point_home
      balance_point_garage main_home_hpwh_load garage_hpwh_load h hrun]
    exact ⟨by ring, le_refl 0, htot⟩

end HourlyLoop

/-- Witness for C1 at a concrete building and hour: 40% exposed, 25% adjacent,
UA 600 at 0.2 per square foot, a 20 degF hour with the heat pump running and
10000 BTU/hour available. -/
theorem hourly_load_split_witness :
    (hour_loads ⟨2/5, 1/4, true, .low, false, none, none⟩ (1/5) 600 0 60 50 0 0
        ⟨20, true, 10000⟩).conventional_load =
      hour_total_load 60 50 600 0 0 0 20 -
      (hour_loads ⟨2/5, 1/4, true, .low, false, none, none⟩ (1/5) 600 0 60 50 0 0
        ⟨20, true, 10000⟩).hp_load ∧
    0 ≤ (hour_loads ⟨2/5, 1/4, true, .low, false, none, none⟩ (1/5) 600 0 60 50 0 0
        ⟨20, true, 10000⟩).hp_load ∧
    0 ≤ (hour_loads ⟨2/5, 1/4, true, .low, false, none, none⟩ (1/5) 600 0 60 50 0 0
        ⟨20, true, 10000⟩).conventional_load :=
  hourly_load_split ⟨2/5, 1/4, true, .low, false, none, none⟩ (1/5) 600 0 60 50 0 0
    ⟨20, true, 10000⟩ (by norm_num) (by norm_num) (by norm_num) (by norm_num)
    (by norm_num) (by norm_num) (by norm_num) (by norm_num)

/-- The candidate heat-pump load is nonnegative whenever the loads and the
exposure fractions are. -/
lemma candidate_hp_load_nonneg (hp : HeatPump)
    (ua_per_ft2 balance_point_home t home_load garage_load : ℚ)
    (hfe : 0 ≤ hp.frac_exposed_to_hp)
    (hfa : 0 ≤ hp.frac_adjacent_to_hp)
    (hhl : 0 ≤ home_load) (hgl : 0 ≤ garage_load) :
    0 ≤ candidate_hp_load hp ua_per_ft2 balance_point_home t home_load garage_load := by
  unfold candidate_hp_load
  set c : ℚ := if hp.serves_garage then 1 else 0 with hc
  have hc0 : (0 : ℚ) ≤ c := by rw [hc]; split <;> norm_num
  simp only []
  split
  · positivity
  · positivity

/-- Claim C2: in the hourly dispatch loop, the load assigned to the heat pump
never exceeds the hour's maximum output interpolated from the performance
curve at the hour's outdoor temperature, and the recorded
capacity-utilization fraction (assigned load over the hour's maximum output,
or 0 when the heat pump is not running) lies in [0, 1].  Physical inputs:
nonnegative exposure fractions, UA values and water-heater loads, and a
positive interpolated maximum output. -/
theorem hourly_capacity_utilization (hp : HeatPump)
    (ua_per_ft2 ua_home ua_garage balance_point_home balance_point_garage
      main_home_hpwh_load garage_hpwh_load t : ℚ) (running : Bool)
    (temps max_capacities : List ℚ)
    (hfe : 0 ≤ hp.frac_exposed_to_hp)
    (hfa : 0 ≤ hp.frac_adjacent_to_hp)
    (hua_home : 0 ≤ ua_home) (hua_garage : 0 ≤ ua_garage)
    (hw_home : 0 ≤ main_home_hpwh_load) (hw_garage : 0 ≤ garage_hpwh_load)
    (hmo : 0 < max_hp_output_at t temps max_capacities) :
    (hour_loads hp ua_per_ft2 ua_home ua_garage balance_point_home
        balance_point_garage main_home_hpwh_load garage_hpwh_load
        ⟨t, running, max_hp_output_at t temps max_capacities⟩).hp_load ≤
      max_hp_output_at t temps max_capacities ∧
    0 ≤ (hour_loads hp ua_per_ft2 ua_home ua_garage balance_point_home
        balance_point_garage main_home_hpwh_load garage_hpwh_load
        ⟨t, running, max_hp_output_at t temps max_capacities⟩).hp_capacity_used ∧
    (hour_loads hp ua_per_ft2 ua_home ua_garage balance_point_home
        balance_point_garage main_home_hpwh_load garage_hpwh_load
        ⟨t, running, max_hp_output_at t temps max_capacities⟩).hp_capacity_used ≤ 1 ∧
    (running = false →
      (hour_loads hp ua_per_ft2 ua_home ua_garage balance_point_home
        balance_point_garage main_home_hpwh_load garage_hpwh_load
        ⟨t, running, max_hp_output_at t temps max_capacities⟩).hp_capacity_used = 0) := by
  cases running with
  | false =>
      rw [hour_loads_not_running hp ua_per_ft2 ua_home ua_garage balance_point_home
        balance_point_garage main_home_hpwh_load garage_hpwh_load
        ⟨t, false, max_hp_output_at t temps max_capacities⟩ rfl]
      exact ⟨hmo.le, le_refl 0, by norm_num, fun _ => rfl⟩
  | true =>
      rw [hour_loads_running hp ua_per_ft2 ua_home ua_garage balance_point_home
        balance_point_garage main_home_hpwh_load garage_hpwh_load
        ⟨t, true, max_hp_output_at t temps max_capacities⟩ rfl]
      have hHL := hour_home_load_nonneg balance_point_home ua_home main_home_hpwh_load
        t hua_home hw_home
      have hGL := hour_garage_load_nonneg balance_point_garage ua_garage garage_hpwh_load
        t hua_garage hw_garage
      have hcand := candidate_hp_load_nonneg hp ua_per_ft2 balance_point_home t
        (hour_home_load balance_point_home ua_home main_home_hpwh_load t)
        (hour_garage_load balance_point_garage ua_garage garage_hpwh_load t)
        hfe hfa hHL hGL
      have hmin0 : 0 ≤ min
          (candidate_hp_load hp ua_per_ft2 balance_point_home t
            (hour_home_load balance_point_home ua_home main_home_hpwh_load t)
            (hour_garage_load balance_point_garage ua_garage garage_hpwh_load t))
          (max_hp_output_at t temps max_capacities) := le_min hcand hmo.le
      have hminle := min_le_right
        (candidate_hp_load hp ua_per_ft2 balance_point_home t
          (hour_home_load balance_point_home ua_home main_home_hpwh_load t)
          (hour_garage_load balance_point_garage ua_garage garage_hpwh_load t))
        (max_hp_output_at t temps max_capacities)
      refine ⟨hminle, div_nonneg hmin0 hmo.le, (div_le_one hmo).mpr hminle, ?_⟩
      intro hcontra
      exact absurd hcontra (by simp)

/-- Witness for C2 at the same concrete building and hour as the C1 witness,
with a two-point performance curve. -/
theorem hourly_capacity_utilization_witness :
    (hour_loads ⟨2/5, 1/4, true, .low, false, none, none⟩ (1/5) 600 0 60 50 0 0
        ⟨20, true, max_hp_output_at 20 [5, 61] [11000, 16000]⟩).hp_load ≤
      max_hp_output_at 20 [5, 61] [11000, 16000] ∧
    0 ≤ (hour_loads ⟨2/5, 1/4, true, .low, false, none, none⟩ (1/5) 600 0 60 50 0 0
        ⟨20, true, max_hp_output_at 20 [5, 61] [11000, 16000]⟩).hp_capacity_used ∧
    (hour_loads ⟨2/5, 1/4, true, .low, false, none, none⟩ (1/5) 600 0 60 50 0 0
        ⟨20, true, max_hp_output_at 20 [5, 61] [11000, 16000]⟩).hp_capacity_used ≤ 1 ∧
    (true = false →
      (hour_loads ⟨2/5, 1/4, true, .low, false, none, none⟩ (1/5) 600 0 60 50 0 0
        ⟨20, true, max_hp_output_at 20 [5, 61] [11000, 16000]⟩).hp_capacity_used = 0) :=
  hourly_capacity_utilization ⟨2/5, 1/4, true, .low, false, none, none⟩ (1/5) 600 0 60 50
    0 0 20 true [5, 61] [11000, 16000] (by norm_num) (by norm_num) (by norm_num)
    (by norm_num) (by norm_num) (by norm_num)
    (by norm_num [max_hp_output_at, npInterp, binarySearch, binSearchGo])

/-- The pre-mask running column keeps the hour count. -/
lemma running_transform_length (hours : List HourRow) (cutoff : Option ℚ) :
    (running_transform hours cutoff).length = hours.length := by
  cases cutoff <;> simp [running_transform]

/-- Value of the pre-mask running column at an in-range hour. -/
lemma running_transform_getD (hours : List HourRow) (cutoff : Option ℚ)
    (i : ℕ) (hi : i < hours.length) :
    (running_transform hours cutoff).getD i false =
      match cutoff with
      | none => true
      | some c => decide (c < quantile20 (day_temps hours hours[i].day_of_year)) := by
  cases cutoff with
  | none =>
      have hlen : i < (hours.map (fun _ => true)).length := by simpa using hi
      rw [running_transform, List.getD_eq_getElem _ _ hlen, List.getElem_map]
  | some c =>
      have hlen : i < ((hours.map (fun h =>
          decide (c < quantile20 (day_temps hours h.day_of_year)))).length) := by
        simpa using hi
      rw [running_transform, List.getD_eq_getElem _ _ hlen, List.getElem_map]

/-- Value of the final running column at an in-range hour: false for an
off month, otherwise the day-level cutoff decision. -/
lemma running_column_getD (hours : List HourRow) (cutoff : Option ℚ)
    (off_months : Option (List ℕ)) (i : ℕ) (hi : i < hours.length) :
    (running_column hours cutoff off_months).getD i false =
      match off_months with
      | none => (running_transform hours cutoff).getD i false
      | some off =>
          if hours[i].month ∈ off then false
          else (running_transform hours cutoff).getD i false := by
  cases off_months with
  | none => rfl
  | some off =>
      have hrt := running_transform_length hours cutoff
      have hzlen : i < (hours.zip (running_transform hours cutoff)).length := by
        simp [List.length_zip, hrt]
        omega
      have hmlen : i < ((hours.zip (running_transform hours cutoff)).map
          (fun p => if p.1.month ∈ off then false else p.2)).length := by
        simpa using hzlen
      have hrlen : i < (running_transform hours cutoff).length := by omega
      simp only [running_column, apply_off_months,
        List.getD_eq_getElem _ _ hmlen, List.getElem_map, List.getElem_zip,
        List.getD_eq_getElem _ _ hrlen]

/-- Claim C7: with a heat pump present, run eligibility is decided per
calendar day: an hour is eligible iff its month is not an off month and (when
a low-temperature cutoff is configured) the 20th percentile of its day's
hourly temperatures strictly exceeds the cutoff; without a cutoff every
non-off hour is eligible.  Before the off-month mask the decision depends on
the hour only through its day of year. -/
theorem daily_run_eligibility (hours : List HourRow) (low_temp_cutoff : Option ℚ)
    (off_months : Option (List ℕ)) (i : ℕ) (hi : i < hours.length) :
    ((running_column hours low_temp_cutoff off_months).getD i false = true ↔
      ((∀ off, off_months = some off → hours[i].month ∉ off) ∧
       (∀ c, low_temp_cutoff = some c →
         c < quantile20 (day_temps hours hours[i].day_of_year)))) ∧
    (∀ j, ∀ hj : j < hours.length,
      hours[j].day_of_year = hours[i].day_of_year →
      (running_transform hours low_temp_cutoff).getD j false =
        (running_transform hours low_temp_cutoff).getD i false) := by
  constructor
  · rw [running_column_getD hours low_temp_cutoff off_months i hi]
    cases off_months with
    | none =>
        cases low_temp_cutoff with
        | none =>
            rw [running_transform_getD hours none i hi]
            simp
        | some c =>
            rw [running_transform_getD hours (some c) i hi]
            simp
    | some off =>
        by_cases hmem : hours[i].month ∈ off
        · simp only [hmem, if_true]
          constructor
          · intro hfalse; cases hfalse
          · rintro ⟨hoff, -⟩
            exact absurd hmem (hoff off rfl)
        · simp only [hmem, if_false]
          cases low_temp_cutoff with
          | none =>
              rw [running_transform_getD hours none i hi]
              simp [hmem]
          | some c =>
              rw [running_transform_getD hours (some c) i hi]
              simp [hmem]
  · intro j hj hday
    rw [running_transform_getD hours low_temp_cutoff j hj,
      running_transform_getD hours low_temp_cutoff i hi]
    cases low_temp_cutoff with
    | none => rfl
    | some c => simp [hday]

/-- Witness for C7 at a concrete three-hour frame: a January off month keeps
the warm first day ineligible, so the masked column reads false there. -/
theorem daily_run_eligibility_witness :
    ((running_column [⟨40, 1, 1⟩, ⟨42, 1, 1⟩, ⟨-10, 2, 32⟩] (some 5) (some [1])).getD
        0 false = true ↔
      ((∀ off, (some [1] : Option (List ℕ)) = some off →
        (([⟨40, 1, 1⟩, ⟨42, 1, 1⟩, ⟨-10, 2, 32⟩] : List HourRow).get
          ⟨0, by norm_num⟩).month ∉ off) ∧
       (∀ c, (some (5 : ℚ) : Option ℚ) = some c →
         c < quantile20 (day_temps [⟨40, 1, 1⟩, ⟨42, 1, 1⟩, ⟨-10, 2, 32⟩]
           (([⟨40, 1, 1⟩, ⟨42, 1, 1⟩, ⟨-10, 2, 32⟩] : List HourRow).get
             ⟨0, by norm_num⟩).day_of_year)))) ∧
    (∀ j, ∀ hj : j < ([⟨40, 1, 1⟩, ⟨42, 1, 1⟩, ⟨-10, 2, 32⟩] : List HourRow).length,
      (([⟨40, 1, 1⟩, ⟨42, 1, 1⟩, ⟨-10, 2, 32⟩] : List HourRow).get ⟨j, hj⟩).day_of_year =
        (([⟨40, 1, 1⟩, ⟨42, 1, 1⟩, ⟨-10, 2, 32⟩] : List HourRow).get
          ⟨0, by norm_num⟩).day_of_year →
      (running_transform [⟨40, 1, 1⟩, ⟨42, 1, 1⟩, ⟨-10, 2, 32⟩] (some 5)).getD j false =
        (running_transform [⟨40, 1, 1⟩, ⟨42, 1, 1⟩, ⟨-10, 2, 32⟩] (some 5)).getD 0 false) :=
  daily_run_eligibility [⟨40, 1, 1⟩, ⟨42, 1, 1⟩, ⟨-10, 2, 32⟩] (some 5) (some [1]) 0
    (by norm_num)

/-- Claim C8: a `PatternFlow` pattern shorter than `duration + 1` is extended
with its last value for the remaining years, and a longer one is truncated to
its first `duration + 1` values; every produced entry is the
pattern multiplier times the item's amount. -/
theorem pattern_flow_extend_truncate (amount : ℚ) (pattern : List ℚ) (duration : ℕ)
    (hne : pattern ≠ []) :
    ∃ seq, (CashFlowItem.patternFlow amount pattern).cash_flow duration = some seq ∧
      seq.length = duration + 1 ∧
      (pattern.length < duration + 1 →
        (∀ y, y < pattern.length → seq.getD y 0 = amount * pattern.getD y 0) ∧
        (∀ y, pattern.length ≤ y → y < duration + 1 →
          seq.getD y 0 = amount * pattern.getLastD 0)) ∧
      (duration + 1 < pattern.length →
        ∀ y, y < duration + 1 → seq.getD y 0 = amount * pattern.getD y 0) ∧
      (pattern.length = duration + 1 → seq = pattern.map (fun v => amount * v)) := by
  obtain ⟨p, ps, rfl⟩ := List.exists_cons_of_ne_nil hne
  rcases lt_trichotomy ((p :: ps).length) (duration + 1) with hlt | heq | hgt
  · -- pattern shorter than duration + 1: extended with its last value
    refine ⟨((p :: ps) ++ List.replicate (duration + 1 - (p :: ps).length)
        ((p :: ps).getLastD 0)).map (fun v => amount * v), ?_, ?_, ?_,
        fun hgt2 => absurd hgt2 (by omega), fun heq2 => absurd heq2 (by omega)⟩
    · simp only [CashFlowItem.cash_flow]
      rw [if_pos hlt]
    · simp only [List.length_map, List.length_append, List.length_replicate]
      omega
    · intro _
      constructor
      · intro y hy
        have hy₂ : y < (((p :: ps) ++ List.replicate (duration + 1 - (p :: ps).length)
            ((p :: ps).getLastD 0)).map (fun v => amount * v)).length := by
          simp only [List.length_map, List.length_append, List.length_replicate]
          omega
        rw [List.getD_eq_getElem _ _ hy₂, List.getElem_map,
          List.getD_eq_getElem _ _ hy]
        congr 1
        exact List.getElem_append_left hy
      · intro y hylo hyhi
        have hy₂ : y < (((p :: ps) ++ List.replicate (duration + 1 - (p :: ps).length)
            ((p :: ps).getLastD 0)).map (fun v => amount * v)).length := by
          simp only [List.length_map, List.length_append, List.length_replicate]
          omega
        rw [List.getD_eq_getElem _ _ hy₂, List.getElem_map]
        congr 1
        rw [List.getElem_append_right hylo, List.getElem_replicate]
  · -- pattern exactly duration + 1 long: used as is
    refine ⟨((p :: ps)).map (fun v => amount * v), ?_,
        by simp only [List.length_map]; omega,
        fun hlt2 => absurd hlt2 (by omega),
        fun hgt2 => absurd hgt2 (by omega), fun _ => rfl⟩
    simp only [CashFlowItem.cash_flow]
    rw [if_neg (by omega), if_neg (by omega)]
  · -- pattern longer than duration + 1: excess values ignored
    refine ⟨((p :: ps).take (duration + 1)).map (fun v => amount * v), ?_, ?_,
        fun hlt2 => absurd hlt2 (by omega), ?_, fun heq2 => absurd heq2 (by omega)⟩
    · simp only [CashFlowItem.cash_flow]
      rw [if_neg (by omega), if_pos (by omega)]
    · simp only [List.length_map, List.length_take]
      omega
    · intro _ y hy
      have hy₂ : y < (((p :: ps).take (duration + 1)).map (fun v => amount * v)).length := by
        simp only [List.length_map, List.length_take]
        omega
      have hy₃ : y < (p :: ps).length := by omega
      rw [List.getD_eq_getElem _ _ hy₂, List.getElem_map,
        List.getD_eq_getElem _ _ hy₃]
      congr 1
      exact List.getElem_take _

/-- Witness for C8 at a concrete item: amount 2, pattern `[1, 3/2]`,
duration 3. -/
theorem pattern_flow_extend_truncate_witness :
    ∃ seq, (CashFlowItem.patternFlow 2 [1, 3/2]).cash_flow 3 = some seq ∧
      seq.length = 3 + 1 ∧
      (([1, 3/2] : List ℚ).length < 3 + 1 →
        (∀ y, y < ([1, 3/2] : List ℚ).length →
          seq.getD y 0 = 2 * ([1, 3/2] : List ℚ).getD y 0) ∧
        (∀ y, ([1, 3/2] : List ℚ).length ≤ y → y < 3 + 1 →
          seq.getD y 0 = 2 * ([1, 3/2] : List ℚ).getLastD 0)) ∧
      (3 + 1 < ([1, 3/2] : List ℚ).length →
        ∀ y, y < 3 + 1 → seq.getD y 0 = 2 * ([1, 3/2] : List ℚ).getD y 0) ∧
      (([1, 3/2] : List ℚ).length = 3 + 1 →
        seq = ([1, 3/2] : List ℚ).map (fun v => 2 * v)) :=
  pattern_flow_extend_truncate 2 [1, 3/2] 3 (by simp)

/-- Counterexample for C5: at duration 0 an `EscalatingFlow` raises
(`np.ones(-1)` is rejected), so no sequence of length `duration + 1 = 1` is
returned. -/
theorem escalating_flow_duration_zero_counterexample :
    (CashFlowItem.escalatingFlow 1 0 none).cash_flow 0 = none ∧
    ¬ ∃ seq, (CashFlowItem.escalatingFlow 1 0 none).cash_flow 0 = some seq ∧
      seq.length = 0 + 1 := by
  refine ⟨rfl, ?_⟩
  rintro ⟨seq, hseq, -⟩
  rw [show (CashFlowItem.escalatingFlow 1 0 none).cash_flow 0 = none from rfl] at hseq
  cases hseq

/-- `cumprodFrom` keeps the length of its input. -/
lemma cumprodFrom_length (acc : ℚ) (l : List ℚ) :
    (cumprodFrom acc l).length = l.length := by
  induction l generalizing acc with
  | nil => rfl
  | cons x xs ih => simp [cumprodFrom, ih]

/-- `blankFrom` keeps the length of its input. -/
lemma blankFrom_length (l : List ℚ) (k : ℕ) :
    (blankFrom l k).length = l.length := by
  simp [blankFrom]
  omega

/-- Folding index assignments over a list keeps its length. -/
lemma foldl_set_length (f : ℕ → ℚ) (yrs : List ℕ) (init : List ℚ) :
    (yrs.foldl (fun result yr => result.set yr (f yr)) init).length = init.length := by
  induction yrs generalizing init with
  | nil => rfl
  | cons y ys ih => simp [ih]

/-- For a positive duration (and the per-variant validity conditions that keep
Python from raising), every cash-flow item variant produces a sequence of
length `duration + 1`. -/
lemma cash_flow_length (item : CashFlowItem) (duration : ℕ) (hd : 1 ≤ duration)
    (hpat : ∀ a p, item = CashFlowItem.patternFlow a p → p ≠ [])
    (hper : ∀ a i e, item = CashFlowItem.periodicAmount a i e → i ≠ 0) :
    ∃ seq, item.cash_flow duration = some seq ∧ seq.length = duration + 1 := by
  cases item with
  | initialAmount amount =>
      exact ⟨_, rfl, by simp⟩
  | escalatingFlow amount escalation_rate end_year =>
      have hd0 : duration ≠ 0 := by omega
      cases end_year with
      | none =>
          refine ⟨((0 : ℚ) :: (1 : ℚ) :: cumprod (List.replicate (duration - 1)
              (1 + escalation_rate))).map (fun v => v * amount), ?_, ?_⟩
          · simp only [CashFlowItem.cash_flow]
            rw [if_neg hd0]
          · simp only [List.length_map, List.length_cons, cumprod, cumprodFrom_length,
              List.length_replicate]
            omega
      | some ey =>
          refine ⟨blankFrom (((0 : ℚ) :: (1 : ℚ) :: cumprod (List.replicate (duration - 1)
              (1 + escalation_rate))).map (fun v => v * amount)) (ey + 1), ?_, ?_⟩
          · simp only [CashFlowItem.cash_flow]
            rw [if_neg hd0]
          · rw [blankFrom_length]
            simp only [List.length_map, List.length_cons, cumprod, cumprodFrom_length,
              List.length_replicate]
            omega
  | patternFlow amount pattern =>
      obtain ⟨seq, hseq, hlen, -⟩ :=
        pattern_flow_extend_truncate amount pattern duration (hpat amount pattern rfl)
      exact ⟨seq, hseq, hlen⟩
  | periodicAmount amount interval escalation_rate =>
      have hi0 : interval ≠ 0 := hper amount interval escalation_rate rfl
      by_cases hneg : interval < 0
      · refine ⟨List.replicate (duration + 1) (0 : ℚ), ?_, by simp⟩
        simp only [CashFlowItem.cash_flow]
        rw [if_neg hi0, if_pos hneg]
      · refine ⟨(pyRange interval.toNat (duration + 1) interval.toNat).foldl
            (fun result yr => result.set yr (amount * (1 + escalation_rate) ^ yr))
            (List.replicate (duration + 1) (0 : ℚ)), ?_, ?_⟩
        · simp only [CashFlowItem.cash_flow]
          rw [if_neg hi0, if_neg hneg]
        · rw [foldl_set_length (fun yr => amount * (1 + escalation_rate) ^ yr)]
          simp

/-- `zipAdd` of equal-length lists keeps the length. -/
lemma zipAdd_length (a b : List ℚ) (h : a.length = b.length) :
    (zipAdd a b).length = a.length := by
  simp [zipAdd, h]

/-- Entry of `zipAdd` at an in-range index. -/
lemma zipAdd_getD (a b : List ℚ) (h : a.length = b.length) (y : ℕ) (hy : y < a.length) :
    (zipAdd a b).getD y 0 = a.getD y 0 + b.getD y 0 := by
  have hz : y < (zipAdd a b).length := by rw [zipAdd_length a b h]; exact hy
  have hb : y < b.length := h ▸ hy
  rw [List.getD_eq_getElem _ _ hz, List.getD_eq_getElem _ _ hy,
    List.getD_eq_getElem _ _ hb]
  simp [zipAdd]

/-- The accumulation loop of `analyze_cash_flow` sums all remaining items'
sequences entry by entry on top of the accumulator. -/
lemma netCashGo_spec (duration : ℕ) (L : ℕ) (rest : List CashFlowItem) :
    ∀ acc : List ℚ, acc.length = L →
    (∀ item ∈ rest, ∃ f, item.cash_flow duration = some f ∧ f.length = L) →
    ∃ nc, netCashGo duration acc rest = some nc ∧ nc.length = L ∧
      ∀ y, y < L → nc.getD y 0 = acc.getD y 0 +
        (rest.map (fun it => ((it.cash_flow duration).getD []).getD y 0)).sum := by
  induction rest with
  | nil =>
      intro acc hacc _
      exact ⟨acc, rfl, hacc, fun y _ => by simp⟩
  | cons item rest ih =>
      intro acc hacc hall
      obtain ⟨f, hf, hflen⟩ := hall item (List.mem_cons_self item rest)
      have hlen2 : (zipAdd acc f).length = L := by
        rw [zipAdd_length acc f (by omega)]
        exact hacc
      obtain ⟨nc, hnc, hnclen, hncval⟩ := ih (zipAdd acc f) hlen2
        (fun it hit => hall it (List.mem_cons_of_mem item hit))
      refine ⟨nc, ?_, hnclen, ?_⟩
      · simp only [netCashGo, hf, Option.bind_some]
        exact hnc
      · intro y hy
        rw [hncval y hy, zipAdd_getD acc f (by omega) y (by omega)]
        simp only [List.map_cons, List.sum_cons, hf, Option.getD_some]
        ring

/-- Claim C5 (amended): for every duration of at least one year, and items
whose variant-specific validity conditions hold (a `PatternFlow` has a
nonempty pattern, a `PeriodicAmount` a nonzero interval — otherwise the
Python raises), every item's `cash_flow` returns a sequence of length
`duration + 1`, and with at least one item the table's Net Cash entry at each
year is the sum of the items' entries for that year. -/
theorem cash_flow_table_lengths_and_net (duration : ℕ) (items : List CashFlowItem)
    (hd : 1 ≤ duration) (hne : items ≠ [])
    (hpat : ∀ item ∈ items, ∀ a p, item = CashFlowItem.patternFlow a p → p ≠ [])
    (hper : ∀ item ∈ items, ∀ a i e, item = CashFlowItem.periodicAmount a i e → i ≠ 0) :
    (∀ item ∈ items, ∃ seq, item.cash_flow duration = some seq ∧
      seq.length = duration + 1) ∧
    ∃ nc, netCash items duration = some nc ∧ nc.length = duration + 1 ∧
      ∀ y, y < duration + 1 →
        nc.getD y 0 =
          (items.map (fun it => ((it.cash_flow duration).getD []).getD y 0)).sum := by
  have hall : ∀ item ∈ items, ∃ seq, item.cash_flow duration = some seq ∧
      seq.length = duration + 1 :=
    fun item hit => cash_flow_length item duration hd (hpat item hit) (hper item hit)
  refine ⟨hall, ?_⟩
  obtain ⟨first, rest, rfl⟩ := List.exists_cons_of_ne_nil hne
  obtain ⟨f, hf, hflen⟩ := hall first (List.mem_cons_self first rest)
  obtain ⟨nc, hnc, hnclen, hncval⟩ := netCashGo_spec duration (duration + 1) rest f hflen
    (fun it hit => hall it (List.mem_cons_of_mem first hit))
  refine ⟨nc, ?_, hnclen, ?_⟩
  · simp only [netCash, hf, Option.bind_some]
    exact hnc
  · intro y hy
    rw [hncval y hy]
    simp only [List.map_cons, List.sum_cons, hf, Option.getD_some]

/-- Witness for C5 at a concrete table: duration 2, an initial cost of 100 and
a level escalating benefit of 60 per year. -/
theorem cash_flow_table_lengths_and_net_witness :
    (∀ item ∈ [CashFlowItem.initialAmount (-100),
        CashFlowItem.escalatingFlow 60 0 none],
      ∃ seq, item.cash_flow 2 = some seq ∧ seq.length = 2 + 1) ∧
    ∃ nc, netCash [CashFlowItem.initialAmount (-100),
        CashFlowItem.escalatingFlow 60 0 none] 2 = some nc ∧ nc.length = 2 + 1 ∧
      ∀ y, y < 2 + 1 →
        nc.getD y 0 =
          (([CashFlowItem.initialAmount (-100),
              CashFlowItem.escalatingFlow 60 0 none].map
            (fun it => ((it.cash_flow 2).getD []).getD y 0))).sum :=
  cash_flow_table_lengths_and_net 2
    [CashFlowItem.initialAmount (-100), CashFlowItem.escalatingFlow 60 0 none]
    (by norm_num) (by simp)
    (by
      intro item hm a p heq
      simp only [List.mem_cons, List.not_mem_nil, or_false] at hm
      rcases hm with rfl | rfl <;> simp at heq)
    (by
      intro item hm a i e heq
      simp only [List.mem_cons, List.not_mem_nil, or_false] at hm
      rcases hm with rfl | rfl <;> simp at heq)

section Dict2dLemmas

variable {κ κ₁ κ₂ : Type} [DecidableEq κ] [DecidableEq κ₁] [DecidableEq κ₂]

/-- Looking up the key just written returns the written value. -/
lemma alGet_alSet_same (l : List (κ × ℚ)) (k : κ) (v d : ℚ) :
    alGet (alSet l k v) k d = v := by
  induction l with
  | nil => simp [alSet, alGet]
  | cons p rest ih =>
      by_cases h : p.1 = k
      · simp [alSet, alGet, h]
      · simp [alSet, alGet, h, ih]

/-- Writing one key leaves every other key's value unchanged. -/
lemma alGet_alSet_ne (l : List (κ × ℚ)) (k a : κ) (v d : ℚ) (h : a ≠ k) :
    alGet (alSet l k v) a d = alGet l a d := by
  induction l with
  | nil => simp [alSet, alGet, Ne.symm h]
  | cons p rest ih =>
      by_cases hpk : p.1 = k
      · have hpa : ¬ p.1 = a := by rw [hpk]; exact Ne.symm h
        simp [alSet, alGet, hpk, hpa, Ne.symm h]
      · by_cases hpa : p.1 = a
        · simp [alSet, alGet, hpk, hpa, h]
        · simp [alSet, alGet, hpk, hpa, ih]

/-- Inner-dictionary variant of `alGet_alSet` for arbitrary value types is not
needed; `Dict2d` inner values are rationals via `alGet` on `List (κ₂ × ℚ)` and
outer values are inner lists, so a list-valued copy is stated here. -/
lemma alGetL_alSetL_same (l : List (κ × List (κ₂ × ℚ))) (k : κ)
    (v d : List (κ₂ × ℚ)) : alGet (alSet l k v) k d = v := by
  induction l with
  | nil => simp [alSet, alGet]
  | cons p rest ih =>
      by_cases h : p.1 = k
      · simp [alSet, alGet, h]
      · simp [alSet, alGet, h, ih]

/-- List-valued variant of `alGet_alSet_ne`. -/
lemma alGetL_alSetL_ne (l : List (κ × List (κ₂ × ℚ))) (k a : κ)
    (v d : List (κ₂ × ℚ)) (h : a ≠ k) : alGet (alSet l k v) a d = alGet l a d := by
  induction l with
  | nil => simp [alSet, alGet, Ne.symm h]
  | cons p rest ih =>
      by_cases hpk : p.1 = k
      · have hpa : ¬ p.1 = a := by rw [hpk]; exact Ne.symm h
        simp [alSet, alGet, hpk, hpa, Ne.symm h]
      · by_cases hpa : p.1 = a
        · simp [alSet, alGet, hpk, hpa, h]
        · simp [alSet, alGet, hpk, hpa, ih]

/-- `Dict2d.add` raises exactly the addressed cell by the added value. -/
lemma Dict2d.get_add (s : Dict2d κ₁ κ₂) (k1 : κ₁) (k2 : κ₂) (v : ℚ)
    (a : κ₁) (b : κ₂) :
    (s.add k1 k2 v).get a b = s.get a b + if k1 = a ∧ k2 = b then v else 0 := by
  unfold Dict2d.add Dict2d.get
  by_cases h1 : a = k1
  · subst h1
    rw [alGetL_alSetL_same]
    by_cases h2 : b = k2
    · subst h2
      rw [alGet_alSet_same]
      simp
    · rw [alGet_alSet_ne _ _ _ _ _ h2]
      simp [Ne.symm h2]
  · rw [alGetL_alSetL_ne _ _ _ _ _ h1]
    simp [Ne.symm h1]

/-- Folding `Dict2d.add` over an entry list adds each entry's contribution to
every cell. -/
lemma Dict2d.get_foldl_add (entries : List (κ₁ × κ₂ × ℚ)) :
    ∀ s : Dict2d κ₁ κ₂, ∀ (a : κ₁) (b : κ₂),
    (entries.foldl (fun acc e => acc.add e.1 e.2.1 e.2.2) s).get a b =
      s.get a b + (entries.map (fun e => if e.1 = a ∧ e.2.1 = b then e.2.2 else 0)).sum := by
  induction entries with
  | nil => intro s a b; simp
  | cons e es ih =>
      intro s a b
      simp only [List.foldl_cons, List.map_cons, List.sum_cons]
      rw [ih (s.add e.1 e.2.1 e.2.2) a b, Dict2d.get_add]
      ring

/-- `Dict2d.add_object` adds the other object's per-cell contribution. -/
lemma Dict2d.get_add_object (s obj : Dict2d κ₁ κ₂) (a : κ₁) (b : κ₂) :
    (s.add_object obj).get a b = s.get a b + obj.entriesSumAt a b :=
  Dict2d.get_foldl_add obj.entries s a b

/-- For a one-level dictionary whose key has no entry the per-cell
contribution vanishes. -/
lemma inner_sum_eq_zero (inner : List (κ₂ × ℚ)) (b : κ₂)
    (hb : b ∉ inner.map Prod.fst) :
    (inner.map (fun q => if q.1 = b then q.2 else 0)).sum = 0 := by
  induction inner with
  | nil => simp
  | cons q rest ih =>
      simp only [List.map_cons, List.mem_cons, not_or] at hb
      simp only [List.map_cons, List.sum_cons]
      rw [if_neg (fun hq => hb.1 hq.symm), ih hb.2]
      ring

/-- For a one-level dictionary with distinct keys the per-cell contribution is
the lookup. -/
lemma inner_sum_eq_alGet (inner : List (κ₂ × ℚ)) (b : κ₂)
    (hn : (inner.map Prod.fst).Nodup) :
    (inner.map (fun q => if q.1 = b then q.2 else 0)).sum = alGet inner b 0 := by
  induction inner with
  | nil => simp [alGet]
  | cons q rest ih =>
      simp only [List.map_cons, List.nodup_cons] at hn
      simp only [List.map_cons, List.sum_cons]
      by_cases hq : q.1 = b
      · rw [if_pos hq]
        have hb : b ∉ rest.map Prod.fst := hq ▸ hn.1
        rw [inner_sum_eq_zero rest b hb]
        simp [alGet, hq]
      · rw [if_neg hq, ih hn.2]
        simp [alGet, hq]

/-- Splitting a `Dict2d`'s per-cell contribution at its first outer key. -/
lemma Dict2d.entriesSumAt_cons (k : κ₁) (inner : List (κ₂ × ℚ))
    (rest : List (κ₁ × List (κ₂ × ℚ))) (a : κ₁) (b : κ₂) :
    Dict2d.entriesSumAt ⟨(k, inner) :: rest⟩ a b =
      (if k = a then (inner.map (fun q => if q.1 = b then q.2 else 0)).sum else 0) +
      Dict2d.entriesSumAt ⟨rest⟩ a b := by
  unfold Dict2d.entriesSumAt Dict2d.entries
  simp only [List.flatMap_cons, List.map_append, List.sum_append, List.map_map]
  congr 1
  by_cases hk : k = a
  · subst hk
    simp [Function.comp_def]
  · simp [Function.comp_def, hk]

/-- An absent outer key contributes nothing to any of its cells. -/
lemma Dict2d.entriesSumAt_of_not_mem (store : List (κ₁ × List (κ₂ × ℚ)))
    (a : κ₁) (b : κ₂) (ha : a ∉ store.map Prod.fst) :
    Dict2d.entriesSumAt ⟨store⟩ a b = 0 := by
  induction store with
  | nil => simp [Dict2d.entriesSumAt, Dict2d.entries]
  | cons p rest ih =>
      simp only [List.map_cons, List.mem_cons, not_or] at ha
      rw [show (⟨p :: rest⟩ : Dict2d κ₁ κ₂) = ⟨(p.1, p.2) :: rest⟩ by rfl,
        Dict2d.entriesSumAt_cons, if_neg (fun hp => ha.1 hp.symm), ih ha.2]
      ring

/-- On a well-formed `Dict2d` the per-cell contribution is exactly `get`. -/
lemma Dict2d.entriesSumAt_eq_get (obj : Dict2d κ₁ κ₂) (hwf : obj.WF)
    (a : κ₁) (b : κ₂) : obj.entriesSumAt a b = obj.get a b := by
  obtain ⟨store⟩ := obj
  induction store with
  | nil => simp [Dict2d.entriesSumAt, Dict2d.entries, Dict2d.get, alGet]
  | cons p rest ih =>
      obtain ⟨houter, hinner⟩ := hwf
      simp only [List.map_cons, List.nodup_cons] at houter
      have hwfrest : (Dict2d.mk rest).WF :=
        ⟨houter.2, fun q hq => hinner q (List.mem_cons_of_mem p hq)⟩
      rw [show (⟨p :: rest⟩ : Dict2d κ₁ κ₂) = ⟨(p.1, p.2) :: rest⟩ by rfl,
        Dict2d.entriesSumAt_cons]
      by_cases hp : p.1 = a
      · subst hp
        rw [if_pos rfl, Dict2d.entriesSumAt_of_not_mem rest p.1 b houter.1,
          inner_sum_eq_alGet p.2 b (hinner p (List.mem_cons_self p rest))]
        simp [Dict2d.get, alGet]
      · rw [if_neg hp, ih hwfrest]
        simp only [Dict2d.get, alGet, hp, if_false]
        ring

/-- Merging a list of well-formed `Dict2d`s cell by cell: every cell of the
fold is the sum of that cell over the list. -/
lemma Dict2d.get_foldl_add_object {α : Type} (f : α → Dict2d κ₁ κ₂) (l : List α) :
    ∀ s : Dict2d κ₁ κ₂, (∀ m ∈ l, (f m).WF) → ∀ (a : κ₁) (b : κ₂),
    (l.foldl (fun acc m => acc.add_object (f m)) s).get a b =
      s.get a b + (l.map (fun m => (f m).get a b)).sum := by
  induction l with
  | nil => intro s _ a b; simp
  | cons m ms ih =>
      intro s hwf a b
      simp only [List.foldl_cons, List.map_cons, List.sum_cons]
      rw [ih (s.add_object (f m)) (fun q hq => hwf q (List.mem_cons_of_mem m hq)) a b,
        Dict2d.get_add_object,
        Dict2d.entriesSumAt_eq_get (f m) (hwf m (List.mem_cons_self m ms)) a b]
      ring

/-- The inner loop of `sum_dicts` adds each entry of one dictionary to the
running result, key by key. -/
lemma alGet_foldl_add (d : List (κ × ℚ)) :
    ∀ res : List (κ × ℚ), ∀ k : κ,
    alGet (d.foldl (fun res kv => alSet res kv.1 (alGet res kv.1 0 + kv.2)) res) k 0 =
      alGet res k 0 + (d.map (fun kv => if kv.1 = k then kv.2 else 0)).sum := by
  induction d with
  | nil => intro res k; simp
  | cons kv ds ih =>
      intro res k
      simp only [List.foldl_cons, List.map_cons, List.sum_cons]
      rw [ih (alSet res kv.1 (alGet res kv.1 0 + kv.2)) k]
      by_cases hk : kv.1 = k
      · subst hk
        rw [alGet_alSet_same]
        simp
        ring
      · rw [alGet_alSet_ne _ _ _ _ _ (Ne.symm hk)]
        simp [hk]

/-- Generic fold form of `sum_dicts`: every key collects each dictionary's
per-entry contribution. -/
lemma sum_dicts_foldl_alGet (dict_list : List (List (κ × ℚ))) :
    ∀ res : List (κ × ℚ), ∀ k : κ,
    alGet (dict_list.foldl
      (fun result d =>
        d.foldl (fun res kv => alSet res kv.1 (alGet res kv.1 0 + kv.2)) result)
      res) k 0 =
    alGet res k 0 +
      (dict_list.map (fun d => (d.map (fun kv => if kv.1 = k then kv.2 else 0)).sum)).sum := by
  induction dict_list with
  | nil => intro res k; simp
  | cons d ds ih =>
      intro res k
      simp only [List.foldl_cons, List.map_cons, List.sum_cons]
      rw [ih (d.foldl (fun res kv => alSet res kv.1 (alGet res kv.1 0 + kv.2)) res) k,
        alGet_foldl_add d res k]
      ring

/-- `sum_dicts` over dictionaries with distinct keys sums like keys and treats
missing keys as zero. -/
lemma sum_dicts_alGet (dict_list : List (List (κ × ℚ)))
    (hwf : ∀ d ∈ dict_list, (d.map Prod.fst).Nodup) (k : κ) :
    alGet (sum_dicts dict_list) k 0 =
      (dict_list.map (fun d => alGet d k 0)).sum := by
  rw [sum_dicts, sum_dicts_foldl_alGet dict_list [] k]
  simp only [alGet, zero_add]
  congr 1
  exact List.map_congr_left (fun d hd => inner_sum_eq_alGet d k (hwf d hd))

end Dict2dLemmas

/-- A fold of `max` dominates its initial value and every folded element, and
returns one of them. -/
lemma foldl_max_spec (l : List ℚ) :
    ∀ init : ℚ, init ≤ l.foldl max init ∧ (∀ x ∈ l, x ≤ l.foldl max init) ∧
      (l.foldl max init = init ∨ l.foldl max init ∈ l) := by
  induction l with
  | nil => intro init; exact ⟨le_refl _, by simp, Or.inl rfl⟩
  | cons y ys ih =>
      intro init
      obtain ⟨h1, h2, h3⟩ := ih (max init y)
      refine ⟨le_trans (le_max_left init y) h1, ?_, ?_⟩
      · intro x hx
        rcases List.mem_cons.mp hx with rfl | hx
        · exact le_trans (le_max_right init x) h1
        · exact h2 x hx
      · rcases h3 with heq | hmem
        · rcases max_choice init y with hc | hc
          · exact Or.inl (by rw [List.foldl_cons, heq, hc])
          · exact Or.inr (by rw [List.foldl_cons, heq, hc]; exact List.mem_cons_self y ys)
        · exact Or.inr (List.mem_cons_of_mem y hmem)

/-- `listMax` of a nonempty list is a member and an upper bound. -/
lemma listMax_spec (l : List ℚ) (hne : l ≠ []) :
    listMax l ∈ l ∧ ∀ x ∈ l, x ≤ listMax l := by
  obtain ⟨y, ys, rfl⟩ := List.exists_cons_of_ne_nil hne
  obtain ⟨h1, h2, h3⟩ := foldl_max_spec ys y
  constructor
  · rcases h3 with heq | hmem
    · rw [listMax, heq]; exact List.mem_cons_self y ys
    · exact List.mem_cons_of_mem y hmem
  · intro x hx
    rcases List.mem_cons.mp hx with rfl | hx
    · exact h1
    · exact h2 x hx

/-- A mapped list sum as a finite sum over positions. -/
lemma map_sum_eq_fin_sum {α : Type} (f : α → ℚ) (l : List α) :
    (l.map f).sum = ∑ i : Fin l.length, f (l.get i) := by
  conv_lhs => rw [← List.ofFn_get l]
  rw [List.map_ofFn, List.sum_ofFn]
  simp [Function.comp_def]

/-- Claim C4: `monthly_to_annual_results` sums every energy/cost/CO2 field
over the twelve monthly rows, takes the maximum of the two peak fields,
recomputes `hp_load_frac` and `cop` from the aggregated sums (never averaging
the monthly ratios), and merges the two-level fuel maps and the fuel-cost
dictionary key by key. -/
theorem monthly_to_annual_spec {κ₁ κ₂ : Type} [DecidableEq κ₁] [DecidableEq κ₂]
    (df_monthly : List (MonthRow κ₁ κ₂))
    (h12 : df_monthly.length = 12)
    (hwf1 : ∀ m ∈ df_monthly, m.fuel_use_mmbtu.WF)
    (hwf2 : ∀ m ∈ df_monthly, m.fuel_use_units.WF)
    (hwfc : ∀ m ∈ df_monthly, (m.fuel_cost.map Prod.fst).Nodup) :
    (monthly_to_annual_results df_monthly).hp_load_mmbtu =
      (∑ i : Fin df_monthly.length, (df_monthly.get i).hp_load_mmbtu) ∧
    (monthly_to_annual_results df_monthly).hp_kwh =
      (∑ i : Fin df_monthly.length, (df_monthly.get i).hp_kwh) ∧
    (monthly_to_annual_results df_monthly).conventional_load_mmbtu =
      (∑ i : Fin df_monthly.length, (df_monthly.get i).conventional_load_mmbtu) ∧
    (monthly_to_annual_results df_monthly).conventional_load_mmbtu_primary =
      (∑ i : Fin df_monthly.length, (df_monthly.get i).conventional_load_mmbtu_primary) ∧
    (monthly_to_annual_results df_monthly).conventional_load_mmbtu_secondary =
      (∑ i : Fin df_monthly.length, (df_monthly.get i).conventional_load_mmbtu_secondary) ∧
    (monthly_to_annual_results df_monthly).fuel_total_cost =
      (∑ i : Fin df_monthly.length, (df_monthly.get i).fuel_total_cost) ∧
    (monthly_to_annual_results df_monthly).co2_lbs =
      (∑ i : Fin df_monthly.length, (df_monthly.get i).co2_lbs) ∧
    ((monthly_to_annual_results df_monthly).hp_capacity_used_max ∈
      df_monthly.map (fun m => m.hp_capacity_used_max) ∧
      ∀ m ∈ df_monthly, m.hp_capacity_used_max ≤
        (monthly_to_annual_results df_monthly).hp_capacity_used_max) ∧
    ((monthly_to_annual_results df_monthly).elec_demand ∈
      df_monthly.map (fun m => m.elec_demand) ∧
      ∀ m ∈ df_monthly, m.elec_demand ≤
        (monthly_to_annual_results df_monthly).elec_demand) ∧
    (monthly_to_annual_results df_monthly).hp_load_frac =
      (∑ i : Fin df_monthly.length, (df_monthly.get i).hp_load_mmbtu) /
        ((∑ i : Fin df_monthly.length, (df_monthly.get i).hp_load_mmbtu) +
          (∑ i : Fin df_monthly.length, (df_monthly.get i).conventional_load_mmbtu)) ∧
    (0 < (∑ i : Fin df_monthly.length, (df_monthly.get i).hp_kwh) →
      (monthly_to_annual_results df_monthly).cop =
        some ((∑ i : Fin df_monthly.length, (df_monthly.get i).hp_load_mmbtu) /
          ((∑ i : Fin df_monthly.length, (df_monthly.get i).hp_kwh) * (3412 / 1000000)))) ∧
    (¬ 0 < (∑ i : Fin df_monthly.length, (df_monthly.get i).hp_kwh) →
      (monthly_to_annual_results df_monthly).cop = none) ∧
    (∀ (a : κ₁) (b : κ₂), (monthly_to_annual_results df_monthly).fuel_use_mmbtu.get a b =
      (∑ i : Fin df_monthly.length, (df_monthly.get i).fuel_use_mmbtu.get a b)) ∧
    (∀ (a : κ₁) (b : κ₂), (monthly_to_annual_results df_monthly).fuel_use_units.get a b =
      (∑ i : Fin df_monthly.length, (df_monthly.get i).fuel_use_units.get a b)) ∧
    (∀ k : κ₁, alGet (monthly_to_annual_results df_monthly).fuel_cost k 0 =
      (∑ i : Fin df_monthly.length, alGet (df_monthly.get i).fuel_cost k 0)) := by
  have hne : df_monthly ≠ [] := by
    intro hcontra
    rw [hcontra] at h12
    simp at h12
  have hsum : ∀ f : MonthRow κ₁ κ₂ → ℚ, (df_monthly.map f).sum =
      ∑ i : Fin df_monthly.length, f (df_monthly.get i) :=
    fun f => map_sum_eq_fin_sum f df_monthly
  refine ⟨hsum _, hsum _, hsum _, hsum _, hsum _, hsum _, hsum _, ?_, ?_, ?_, ?_, ?_,
    ?_, ?_, ?_⟩
  · have hmne : df_monthly.map (fun m => m.hp_capacity_used_max) ≠ [] := by
      simpa using hne
    obtain ⟨hmem, hub⟩ := listMax_spec _ hmne
    exact ⟨hmem, fun m hm => hub _ (List.mem_map_of_mem _ hm)⟩
  · have hmne : df_monthly.map (fun m => m.elec_demand) ≠ [] := by
      simpa using hne
    obtain ⟨hmem, hub⟩ := listMax_spec _ hmne
    exact ⟨hmem, fun m hm => hub _ (List.mem_map_of_mem _ hm)⟩
  · show (df_monthly.map (fun m => m.hp_load_mmbtu)).sum /
        ((df_monthly.map (fun m => m.hp_load_mmbtu)).sum +
          (df_monthly.map (fun m => m.conventional_load_mmbtu)).sum) = _
    rw [hsum, hsum]
  · intro hpos
    show (if 0 < (df_monthly.map (fun m => m.hp_kwh)).sum then _ else _) = _
    rw [hsum] at *
    rw [if_pos hpos, hsum]
  · intro hneg
    show (if 0 < (df_monthly.map (fun m => m.hp_kwh)).sum then _ else _) = _
    rw [hsum] at *
    rw [if_neg hneg]
  · intro a b
    show (df_monthly.foldl (fun acc m => acc.add_object m.fuel_use_mmbtu)
        Dict2d.empty).get a b = _
    rw [Dict2d.get_foldl_add_object (fun m => m.fuel_use_mmbtu) df_monthly
      Dict2d.empty hwf1 a b]
    have hzero : (Dict2d.empty : Dict2d κ₁ κ₂).get a b = 0 := rfl
    rw [hzero, zero_add, hsum]
  · intro a b
    show (df_monthly.foldl (fun acc m => acc.add_object m.fuel_use_units)
        Dict2d.empty).get a b = _
    rw [Dict2d.get_foldl_add_object (fun m => m.fuel_use_units) df_monthly
      Dict2d.empty hwf2 a b]
    have hzero : (Dict2d.empty : Dict2d κ₁ κ₂).get a b = 0 := rfl
    rw [hzero, zero_add, hsum]
  · intro k
    show alGet (sum_dicts (df_monthly.map (fun m => m.fuel_cost))) k 0 = _
    rw [sum_dicts_alGet (df_monthly.map (fun m => m.fuel_cost))
      (by intro d hd; obtain ⟨m, hm, rfl⟩ := List.mem_map.mp hd; exact hwfc m hm) k,
      List.map_map]
    exact map_sum_eq_fin_sum _ df_monthly

/-- Witness for C4 on a concrete table of twelve identical sample months: the
merged two-level fuel map's electricity space-heating cell is the sum of the
twelve monthly cells. -/
theorem monthly_to_annual_spec_witness :
    (monthly_to_annual_results (List.replicate 12 sampleMonth)).fuel_use_mmbtu.get
        Fuel.elec EndUse.space_htg =
      ∑ i : Fin (List.replicate 12 sampleMonth).length,
        ((List.replicate 12 sampleMonth).get i).fuel_use_mmbtu.get
          Fuel.elec EndUse.space_htg :=
  (monthly_to_annual_spec (List.replicate 12 sampleMonth) (by simp)
    (by
      intro m hm
      rw [List.eq_of_mem_replicate hm]
      exact ⟨by decide, by decide⟩)
    (by
      intro m hm
      rw [List.eq_of_mem_replicate hm]
      exact ⟨by decide, by decide⟩)
    (by
      intro m hm
      rw [List.eq_of_mem_replicate hm]
      decide)).2.2.2.2.2.2.2.2.2.2.2.2.1 Fuel.elec EndUse.space_htg

end HeatPumpCalc
